import Mathlib

/-!
Shallow embedding of the chunked-translation runner of `src/main.py`
(`TranslationWorker` and the `TranslatorApp.translate_text` guard).

Python strings are modelled as Lean `String`s (sequences of code points);
the external translation libraries (googletrans / deep-translator / the
deepl network call) are modelled as an oracle `net : Nat → Nat → Except
String String` giving, for chunk index `i` and attempt index `a`, either
the returned translation (`Except.ok`) or the message of the raised
exception (`Except.error`).  The worker's `_is_running` flag, which is
written from the UI thread, is modelled as an oracle `running : Nat →
Bool` giving the value read at the top of loop iteration `i`.  Wall-clock
sleeping and the emitted signals are recorded in a trace.  Python float
arithmetic in the progress computation `int((i + 1) / total_chunks * 100)`
is modelled exactly (natural floor division), and `time.sleep` by
recording the requested duration.
-/

namespace TranslatorPro

/-- Code-point-level model of the chunking list comprehension
`[self.text[i:i+4500] for i in range(0, len(self.text), 4500)]`
(src/main.py line 65). -/
def chunkData : List Char → List (List Char)
  | [] => []
  | c :: cs => ((c :: cs).take 4500) :: chunkData ((c :: cs).drop 4500)
termination_by l => l.length
decreasing_by simp [List.length_drop]; omega

/-- String-level chunking,
`chunks = [self.text[i:i+4500] for i in range(0, len(self.text), 4500)]`. -/
def chunksOf (text : String) : List String :=
  (chunkData text.data).map List.asString

/-- Python `str.strip()` (src/main.py line 106): whitespace removed from BOTH
ends of the string. -/
def pyStrip (s : String) : String :=
  (((s.data.dropWhile Char.isWhitespace).reverse.dropWhile Char.isWhitespace).reverse).asString

/-- Modelled from the spec: the spec's words for the final buffer treatment,
"the accumulated buffer stripped of trailing whitespace" — whitespace removed
from the right end only.  Used to compare against what the code does. -/
def specRStrip (s : String) : String :=
  ((s.data.reverse.dropWhile Char.isWhitespace).reverse).asString

/-- Message of the exception raised by `_translate_with_deepl` when
`self.deepl_api_key` is falsy (src/main.py lines 145-146). -/
def deeplKeyErrorMsg : String :=
  "DeepL API key is required. Please configure it in Settings."

/-- Result of one attempt of `TranslationWorker._translate_chunk`
(src/main.py lines 113-122), paired with whether an external
translation-library / network call was made on that attempt.  `net` is the
external world's response for this attempt, consulted only when the dispatch
reaches an external call. -/
def translateChunkAttempt (backend apiKey : String) (net : Except String String) :
    Except String String × Bool :=
  if backend = "googletrans" then (net, true)
  else if backend = "deep-translator" then (net, true)
  else if backend = "deepl" then
    if apiKey = "" then (Except.error deeplKeyErrorMsg, false)
    else (net, true)
  else (Except.error ("Unknown translation backend: " ++ backend), false)

instance {ε α : Type} [DecidableEq ε] [DecidableEq α] : DecidableEq (Except ε α) := fun a b =>
  match a, b with
  | Except.ok x, Except.ok y => decidable_of_iff (x = y) (by simp)
  | Except.error x, Except.error y => decidable_of_iff (x = y) (by simp)
  | Except.ok _, Except.error _ => isFalse (by simp)
  | Except.error _, Except.ok _ => isFalse (by simp)

/-- Message of the exception raised when all `max_retries = 3` attempts fail
(src/main.py line 100). -/
def failMsg (e : String) : String :=
  "Translation failed after 3 attempts. Error: " ++ e

/-- Trace of the retry loop `for attempt in range(max_retries)` for one chunk
(src/main.py lines 80-100): sleeps performed (in seconds, in order), number of
attempts made, number of external calls made, and either the translated chunk
or the message of the exception that escapes the loop. -/
structure ChunkTrace where
  sleeps : List Nat
  attempts : Nat
  netCalls : Nat
  result : Except String String
deriving Repr, DecidableEq

/-- The retry loop for one chunk, unrolled for `max_retries = 3`:
`retry_delay` starts at 2 and doubles after each sleep, so attempt 1 is
preceded by a 2-second sleep and attempt 2 by a 4-second sleep; a third
failure raises `failMsg` of the last error (src/main.py lines 80-100). -/
def chunkRetry (backend apiKey : String) (net : Nat → Except String String) :
    ChunkTrace :=
  match (translateChunkAttempt backend apiKey (net 0)).1 with
  | Except.ok t =>
      { sleeps := [], attempts := 1,
        netCalls := cond (translateChunkAttempt backend apiKey (net 0)).2 1 0,
        result := Except.ok t }
  | Except.error _ =>
    match (translateChunkAttempt backend apiKey (net 1)).1 with
    | Except.ok t =>
        { sleeps := [2], attempts := 2,
          netCalls := cond (translateChunkAttempt backend apiKey (net 0)).2 1 0
            + cond (translateChunkAttempt backend apiKey (net 1)).2 1 0,
          result := Except.ok t }
    | Except.error _ =>
      match (translateChunkAttempt backend apiKey (net 2)).1 with
      | Except.ok t =>
          { sleeps := [2, 4], attempts := 3,
            netCalls := cond (translateChunkAttempt backend apiKey (net 0)).2 1 0
              + cond (translateChunkAttempt backend apiKey (net 1)).2 1 0
              + cond (translateChunkAttempt backend apiKey (net 2)).2 1 0,
            result := Except.ok t }
      | Except.error e =>
          { sleeps := [2, 4], attempts := 3,
            netCalls := cond (translateChunkAttempt backend apiKey (net 0)).2 1 0
              + cond (translateChunkAttempt backend apiKey (net 1)).2 1 0
              + cond (translateChunkAttempt backend apiKey (net 2)).2 1 0,
            result := Except.error (failMsg e) }

/-- Trace of one execution of `TranslationWorker.run` (src/main.py lines
59-111): `checks` counts reads of `self._is_running`; `chunksAttempted` counts
chunks whose retry loop was entered; `chunksCompleted` counts chunks
successfully translated (appended to the buffer, progress emitted);
`attempts` / `netCalls` / `sleeps` accumulate over all chunks;
`progressVals` lists the values passed to `self.progress.emit` in order;
`outcome` is `none` when the run returns with no terminal signal
(cancellation), `some (Except.ok s)` for `translation_done.emit(s)`, and
`some (Except.error e)` for `translation_error.emit(e)`. -/
structure RunTrace where
  checks : Nat
  chunksAttempted : Nat
  chunksCompleted : Nat
  attempts : Nat
  netCalls : Nat
  sleeps : List Nat
  progressVals : List Nat
  outcome : Option (Except String String)
deriving Repr, DecidableEq

/-- The chunk loop of `TranslationWorker.run` (src/main.py lines 71-103)
together with the terminal emissions (lines 106 and 111).  `l` is the list of
chunks still to process, `i` the current chunk index (equal to the number of
`_is_running` checks already performed, since the flag is read exactly once at
the top of each iteration), `acc` the accumulated `translated_text`, and
`total` is `total_chunks`.  The chunk's text itself is not consulted: the
external response for chunk `i` is `net i`.  Progress after completing chunk
`i` is `int((i + 1) / total_chunks * 100)`, i.e. `(i + 1) * 100 / total` in
exact arithmetic.  A retry-exhaustion exception propagates to the outer
`except`, which emits `translation_error` with the exception's message. -/
def runLoop (backend apiKey : String) (net : Nat → Nat → Except String String)
    (running : Nat → Bool) (total : Nat) :
    List String → Nat → String → RunTrace
  | [], _, acc =>
      { checks := 0, chunksAttempted := 0, chunksCompleted := 0, attempts := 0,
        netCalls := 0, sleeps := [], progressVals := [],
        outcome := some (Except.ok (pyStrip acc)) }
  | _chunk :: rest, i, acc =>
      if running i then
        match (chunkRetry backend apiKey (net i)).result with
        | Except.error e =>
            { checks := 1, chunksAttempted := 1, chunksCompleted := 0,
              attempts := (chunkRetry backend apiKey (net i)).attempts,
              netCalls := (chunkRetry backend apiKey (net i)).netCalls,
              sleeps := (chunkRetry backend apiKey (net i)).sleeps,
              progressVals := [],
              outcome := some (Except.error e) }
        | Except.ok t =>
            { checks := 1 + (runLoop backend apiKey net running total rest (i + 1)
                (acc ++ t ++ " ")).checks,
              chunksAttempted := 1 + (runLoop backend apiKey net running total rest (i + 1)
                (acc ++ t ++ " ")).chunksAttempted,
              chunksCompleted := 1 + (runLoop backend apiKey net running total rest (i + 1)
                (acc ++ t ++ " ")).chunksCompleted,
              attempts := (chunkRetry backend apiKey (net i)).attempts
                + (runLoop backend apiKey net running total rest (i + 1)
                    (acc ++ t ++ " ")).attempts,
              netCalls := (chunkRetry backend apiKey (net i)).netCalls
                + (runLoop backend apiKey net running total rest (i + 1)
                    (acc ++ t ++ " ")).netCalls,
              sleeps := (chunkRetry backend apiKey (net i)).sleeps
                ++ (runLoop backend apiKey net running total rest (i + 1)
                    (acc ++ t ++ " ")).sleeps,
              progressVals := (i + 1) * 100 / total
                :: (runLoop backend apiKey net running total rest (i + 1)
                    (acc ++ t ++ " ")).progressVals,
              outcome := (runLoop backend apiKey net running total rest (i + 1)
                (acc ++ t ++ " ")).outcome }
      else
        { checks := 1, chunksAttempted := 0, chunksCompleted := 0, attempts := 0,
          netCalls := 0, sleeps := [], progressVals := [], outcome := none }

/-- Model of `TranslationWorker.run`: chunk the text, then run the loop; on normal
completion `translation_done.emit(translated_text.strip())`. -/
def workerRun (text backend apiKey : String)
    (net : Nat → Nat → Except String String) (running : Nat → Bool) : RunTrace :=
  runLoop backend apiKey net running (chunksOf text).length (chunksOf text) 0 ""

/-- The `deepl_lang_map` dict literal of `_translate_with_deepl`
(src/main.py lines 152-159). -/
def deeplLangMap : List (String × String) :=
  [("en", "EN-US"), ("es", "ES"), ("fr", "FR"), ("de", "DE"), ("it", "IT"),
   ("pt", "PT-PT"), ("pl", "PL"), ("ru", "RU"), ("ja", "JA"), ("zh", "ZH"),
   ("nl", "NL"), ("sv", "SV"), ("da", "DA"), ("fi", "FI"), ("el", "EL"),
   ("cs", "CS"), ("ro", "RO"), ("hu", "HU"), ("sk", "SK"), ("bg", "BG"),
   ("et", "ET"), ("lv", "LV"), ("lt", "LT"), ("sl", "SL"), ("tr", "TR"),
   ("id", "ID"), ("uk", "UK"), ("ko", "KO"), ("no", "NB")]

/-- Python `str.upper()`, which on the ASCII language codes at issue is ASCII
upper-casing. -/
def pyUpper (s : String) : String := s.toUpper

/-- Target-language resolution
`deepl_lang_map.get(self.target_lang, self.target_lang.upper())`
(src/main.py line 161). -/
def deeplTargetLang (lang : String) : String :=
  (deeplLangMap.lookup lang).getD (pyUpper lang)

/-- The placeholder string compared against in `TranslatorApp.translate_text`
(src/main.py line 1118). -/
def placeholderText : String := "Enter or paste your text here..."

/-- Constructor arguments of `TranslationWorker` (src/main.py lines 1143-1148). -/
structure WorkerParams where
  text : String
  targetLang : String
  backend : String
  apiKey : String
deriving Repr, DecidableEq

/-- The guard of `TranslatorApp.translate_text` (src/main.py lines 1117-1120)
up to worker creation: `none` models the early `return` (a status message is
set, no worker is created, no run is started, no outcome is ever delivered);
`some p` models constructing and starting `TranslationWorker(p.text,
p.targetLang, p.backend, p.apiKey)`.  Python's `not source_text` is true
exactly when the string is empty. -/
def translateText (sourceText targetLangCode backend apiKey : String) :
    Option WorkerParams :=
  if sourceText = "" ∨ sourceText = placeholderText then none
  else some ⟨sourceText, targetLangCode, backend, apiKey⟩

/-! ## Chunking lemmas -/

lemma chunkData_flatten (l : List Char) : (chunkData l).flatten = l := by
  induction l using chunkData.induct with
  | case1 => simp [chunkData]
  | case2 c cs ih =>
      rw [chunkData, List.flatten_cons, ih]
      exact List.take_append_drop 4500 (c :: cs)

lemma chunkData_length (l : List Char) :
    (chunkData l).length = (l.length + 4499) / 4500 := by
  induction l using chunkData.induct with
  | case1 => simp [chunkData]
  | case2 c cs ih =>
      rw [chunkData, List.length_cons, ih, List.length_drop]
      simp only [List.length_cons]
      omega

lemma chunkData_mem_length {l c : List Char} (hc : c ∈ chunkData l) :
    c.length ≤ 4500 := by
  induction l using chunkData.induct with
  | case1 => simp [chunkData] at hc
  | case2 a as ih =>
      rw [chunkData] at hc
      rcases List.mem_cons.1 hc with h | h
      · subst h
        simp [List.length_take]
      · exact ih h

lemma chunksOf_length (s : String) :
    (chunksOf s).length = (s.length + 4499) / 4500 := by
  rw [chunksOf, List.length_map, chunkData_length]
  rfl

lemma chunksOf_join (s : String) : String.join (chunksOf s) = s := by
  have hcomp : String.data ∘ List.asString = id := funext fun l => rfl
  have hdata : (chunksOf s).map String.data = chunkData s.data := by
    rw [chunksOf, List.map_map, hcomp, List.map_id]
  rw [String.join_eq, hdata, chunkData_flatten]

lemma chunksOf_mem_length {s : String} {c : String} (hc : c ∈ chunksOf s) :
    c.length ≤ 4500 := by
  rcases List.mem_map.1 hc with ⟨l, hl, rfl⟩
  simpa [List.length_asString] using chunkData_mem_length hl

/-- A non-empty text no longer than the chunk limit is a single chunk. -/
lemma chunksOf_small {s : String} (hle : s.data.length ≤ 4500) (hne : s.data ≠ []) :
    chunksOf s = [s] := by
  rw [chunksOf]
  cases hd : s.data with
  | nil => exact absurd hd hne
  | cons c cs =>
      rw [hd] at hle
      rw [chunkData, List.take_of_length_le hle, List.drop_of_length_le hle, chunkData]
      rw [List.map_cons, List.map_nil, ← hd]
      rfl

/-- A non-empty text has at least one chunk. -/
lemma chunksOf_ne_nil {s : String} (hne : s ≠ "") : chunksOf s ≠ [] := by
  intro h
  apply hne
  have hlen := chunksOf_length s
  rw [h] at hlen
  simp only [List.length_nil] at hlen
  have : s.length = 0 := by omega
  have hdata : s.data = [] := List.length_eq_zero.1 this
  cases s
  simp_all

/-! ## Step lemmas for the run loop -/

section RunLoopLemmas

variable (b k : String) (net : Nat → Nat → Except String String)
variable (running : Nat → Bool) (total : Nat)

lemma runLoop_nil (i : Nat) (acc : String) :
    runLoop b k net running total [] i acc =
      { checks := 0, chunksAttempted := 0, chunksCompleted := 0, attempts := 0,
        netCalls := 0, sleeps := [], progressVals := [],
        outcome := some (Except.ok (pyStrip acc)) } := rfl

lemma runLoop_cons_cancel {i : Nat} (c : String) (l : List String) (acc : String)
    (h : running i = false) :
    runLoop b k net running total (c :: l) i acc =
      { checks := 1, chunksAttempted := 0, chunksCompleted := 0, attempts := 0,
        netCalls := 0, sleeps := [], progressVals := [], outcome := none } := by
  simp [runLoop, h]

lemma runLoop_cons_err {i : Nat} (c : String) (l : List String) (acc : String)
    {e : String} (h : running i = true)
    (he : (chunkRetry b k (net i)).result = Except.error e) :
    runLoop b k net running total (c :: l) i acc =
      { checks := 1, chunksAttempted := 1, chunksCompleted := 0,
        attempts := (chunkRetry b k (net i)).attempts,
        netCalls := (chunkRetry b k (net i)).netCalls,
        sleeps := (chunkRetry b k (net i)).sleeps, progressVals := [],
        outcome := some (Except.error e) } := by
  rw [runLoop, if_pos h]
  split
  · next heq => rw [he] at heq; cases heq; rfl
  · next heq => rw [he] at heq; cases heq

lemma runLoop_cons_ok {i : Nat} (c : String) (l : List String) (acc : String)
    {t : String} (h : running i = true)
    (ht : (chunkRetry b k (net i)).result = Except.ok t) :
    runLoop b k net running total (c :: l) i acc =
      { checks := 1 + (runLoop b k net running total l (i + 1) (acc ++ t ++ " ")).checks,
        chunksAttempted :=
          1 + (runLoop b k net running total l (i + 1) (acc ++ t ++ " ")).chunksAttempted,
        chunksCompleted :=
          1 + (runLoop b k net running total l (i + 1) (acc ++ t ++ " ")).chunksCompleted,
        attempts := (chunkRetry b k (net i)).attempts
          + (runLoop b k net running total l (i + 1) (acc ++ t ++ " ")).attempts,
        netCalls := (chunkRetry b k (net i)).netCalls
          + (runLoop b k net running total l (i + 1) (acc ++ t ++ " ")).netCalls,
        sleeps := (chunkRetry b k (net i)).sleeps
          ++ (runLoop b k net running total l (i + 1) (acc ++ t ++ " ")).sleeps,
        progressVals := (i + 1) * 100 / total
          :: (runLoop b k net running total l (i + 1) (acc ++ t ++ " ")).progressVals,
        outcome := (runLoop b k net running total l (i + 1) (acc ++ t ++ " ")).outcome } := by
  rw [runLoop, if_pos h]
  split
  · next heq => rw [ht] at heq; cases heq
  · next t' heq => rw [ht] at heq; cases heq; rfl

/-- On a run segment in which the flag stays up and every chunk's retry loop
succeeds, the final outcome is `translation_done` of the stripped buffer
obtained by appending each translation plus a space, in order. -/
lemma runLoop_ok_outcome :
    ∀ (l ts : List String) (i : Nat) (acc : String),
      ts.length = l.length →
      (∀ j, j < l.length → running (i + j) = true) →
      (∀ j, (hj : j < ts.length) →
        (chunkRetry b k (net (i + j))).result = Except.ok (ts.get ⟨j, hj⟩)) →
      (runLoop b k net running total l i acc).outcome
        = some (Except.ok (pyStrip (ts.foldl (fun a t => a ++ t ++ " ") acc)))
  | [], ts, i, acc, hlen, _, _ => by
      rw [List.length_eq_zero.1 hlen, runLoop_nil]
      rfl
  | c :: l, ts, i, acc, hlen, hrun, hok => by
      match ts, hlen with
      | t :: ts, hlen =>
        have h0 : running i = true := by simpa using hrun 0 (by simp)
        have ht : (chunkRetry b k (net i)).result = Except.ok t := by
          simpa using hok 0 (by simp)
        rw [runLoop_cons_ok b k net running total c l acc h0 ht]
        simp only [List.foldl_cons]
        exact runLoop_ok_outcome l ts (i + 1) (acc ++ t ++ " ")
          (by simpa using hlen)
          (fun j hj => by
            have := hrun (j + 1) (by simpa using Nat.succ_lt_succ hj)
            simpa [Nat.add_assoc, Nat.add_comm 1 j] using this)
          (fun j hj => by
            have := hok (j + 1) (by simpa using Nat.succ_lt_succ hj)
            simpa [Nat.add_assoc, Nat.add_comm 1 j] using this)

/-- On a run segment in which the flag stays up, the first `m` chunks succeed
and chunk `m` leaves its retry loop with an error, the run emits
`translation_error` with that error and attempts no chunk past `m`. -/
lemma runLoop_err_outcome :
    ∀ (l : List String) (m i : Nat) (acc E : String),
      m < l.length →
      (∀ j, j ≤ m → running (i + j) = true) →
      (∀ j, j < m → ∃ t, (chunkRetry b k (net (i + j))).result = Except.ok t) →
      (chunkRetry b k (net (i + m))).result = Except.error E →
      (runLoop b k net running total l i acc).outcome = some (Except.error E)
      ∧ (runLoop b k net running total l i acc).chunksAttempted = m + 1
  | [], m, i, acc, E, hm, _, _, _ => absurd hm (by simp)
  | c :: l, 0, i, acc, E, _, hrun, _, herr => by
      have h0 : running i = true := by simpa using hrun 0 (by simp)
      rw [runLoop_cons_err b k net running total c l acc h0 (by simpa using herr)]
      exact ⟨rfl, rfl⟩
  | c :: l, m + 1, i, acc, E, hm, hrun, hok, herr => by
      have h0 : running i = true := by simpa using hrun 0 (by simp)
      obtain ⟨t, ht⟩ := hok 0 (by simp)
      rw [runLoop_cons_ok b k net running total c l acc h0 (by simpa using ht)]
      have ih := runLoop_err_outcome l m (i + 1) (acc ++ t ++ " ") E
        (by simpa using Nat.lt_of_succ_lt_succ hm)
        (fun j hj => by
          have := hrun (j + 1) (by omega)
          simpa [Nat.add_assoc, Nat.add_comm 1 j] using this)
        (fun j hj => by
          have := hok (j + 1) (by omega)
          simpa [Nat.add_assoc, Nat.add_comm 1 j] using this)
        (by
          have h := herr
          rw [show i + (m + 1) = i + 1 + m by omega] at h
          exact h)
      exact ⟨ih.1, by simp [ih.2]; omega⟩

/-- On a run segment in which the flag stays up and the first `m` chunks
succeed, reading the flag as down at boundary `m` makes the run return with no
outcome at all, after exactly one flag check per boundary reached. -/
lemma runLoop_cancel_at :
    ∀ (l : List String) (m i : Nat) (acc : String),
      m < l.length →
      (∀ j, j < m → running (i + j) = true) →
      running (i + m) = false →
      (∀ j, j < m → ∃ t, (chunkRetry b k (net (i + j))).result = Except.ok t) →
      (runLoop b k net running total l i acc).outcome = none
      ∧ (runLoop b k net running total l i acc).chunksAttempted = m
      ∧ (runLoop b k net running total l i acc).checks = m + 1
  | [], m, i, acc, hm, _, _, _ => absurd hm (by simp)
  | c :: l, 0, i, acc, _, _, hcan, _ => by
      rw [runLoop_cons_cancel b k net running total c l acc (by simpa using hcan)]
      exact ⟨rfl, rfl, rfl⟩
  | c :: l, m + 1, i, acc, hm, hrun, hcan, hok => by
      have h0 : running i = true := by simpa using hrun 0 (by simp)
      obtain ⟨t, ht⟩ := hok 0 (by simp)
      rw [runLoop_cons_ok b k net running total c l acc h0 (by simpa using ht)]
      have ih := runLoop_cancel_at l m (i + 1) (acc ++ t ++ " ")
        (by simpa using Nat.lt_of_succ_lt_succ hm)
        (fun j hj => by
          have := hrun (j + 1) (by omega)
          simpa [Nat.add_assoc, Nat.add_comm 1 j] using this)
        (by
          have h := hcan
          rw [show i + (m + 1) = i + 1 + m by omega] at h
          exact h)
        (fun j hj => by
          have := hok (j + 1) (by omega)
          simpa [Nat.add_assoc, Nat.add_comm 1 j] using this)
      refine ⟨ih.1, by simp only [ih.2.1]; omega, by simp only [ih.2.2]; omega⟩

/-- The run's terminal outcome depends on the per-chunk retry results only:
two external worlds whose retry loops resolve every chunk identically give
identical outcomes. -/
lemma runLoop_outcome_congr (net' : Nat → Nat → Except String String)
    (h : ∀ i, (chunkRetry b k (net i)).result = (chunkRetry b k (net' i)).result) :
    ∀ (l : List String) (i : Nat) (acc : String),
      (runLoop b k net running total l i acc).outcome
        = (runLoop b k net' running total l i acc).outcome
  | [], i, acc => by rw [runLoop_nil, runLoop_nil]
  | c :: l, i, acc => by
      cases hrn : running i with
      | false =>
          rw [runLoop_cons_cancel b k net running total c l acc hrn,
            runLoop_cons_cancel b k net' running total c l acc hrn]
      | true =>
        cases hr : (chunkRetry b k (net i)).result with
        | error e =>
            rw [runLoop_cons_err b k net running total c l acc hrn hr,
              runLoop_cons_err b k net' running total c l acc hrn ((h i).symm.trans hr)]
        | ok t =>
            rw [runLoop_cons_ok b k net running total c l acc hrn hr,
              runLoop_cons_ok b k net' running total c l acc hrn ((h i).symm.trans hr)]
            exact runLoop_outcome_congr net' h l (i + 1) (acc ++ t ++ " ")

end RunLoopLemmas

/-! ## Retry-loop case lemmas -/

section ChunkRetryLemmas

variable {b k : String} {net : Nat → Except String String}

/-- The first attempt succeeds: one attempt, no sleeping. -/
lemma chunkRetry_ok0 {t : String}
    (h0 : (translateChunkAttempt b k (net 0)).1 = Except.ok t) :
    chunkRetry b k net =
      { sleeps := [], attempts := 1,
        netCalls := cond (translateChunkAttempt b k (net 0)).2 1 0,
        result := Except.ok t } := by
  rw [chunkRetry]
  split
  · next heq => rw [h0] at heq; cases heq; rfl
  · next heq => rw [h0] at heq; cases heq

/-- Two failures then a success: three attempts, sleeping 2 then 4 seconds,
and the chunk's result is the third attempt's translation. -/
lemma chunkRetry_thirdOk {e0 e1 t : String}
    (h0 : (translateChunkAttempt b k (net 0)).1 = Except.error e0)
    (h1 : (translateChunkAttempt b k (net 1)).1 = Except.error e1)
    (h2 : (translateChunkAttempt b k (net 2)).1 = Except.ok t) :
    chunkRetry b k net =
      { sleeps := [2, 4], attempts := 3,
        netCalls := cond (translateChunkAttempt b k (net 0)).2 1 0
          + cond (translateChunkAttempt b k (net 1)).2 1 0
          + cond (translateChunkAttempt b k (net 2)).2 1 0,
        result := Except.ok t } := by
  rw [chunkRetry]
  split
  · next heq => rw [h0] at heq; cases heq
  · split
    · next heq => rw [h1] at heq; cases heq
    · split
      · next heq => rw [h2] at heq; cases heq; rfl
      · next heq => rw [h2] at heq; cases heq

/-- Three failures: three attempts, sleeping 2 then 4 seconds, and the loop
raises `failMsg` of the last attempt's error. -/
lemma chunkRetry_allFail {e0 e1 E : String}
    (h0 : (translateChunkAttempt b k (net 0)).1 = Except.error e0)
    (h1 : (translateChunkAttempt b k (net 1)).1 = Except.error e1)
    (h2 : (translateChunkAttempt b k (net 2)).1 = Except.error E) :
    chunkRetry b k net =
      { sleeps := [2, 4], attempts := 3,
        netCalls := cond (translateChunkAttempt b k (net 0)).2 1 0
          + cond (translateChunkAttempt b k (net 1)).2 1 0
          + cond (translateChunkAttempt b k (net 2)).2 1 0,
        result := Except.error (failMsg E) } := by
  rw [chunkRetry]
  split
  · next heq => rw [h0] at heq; cases heq
  · split
    · next heq => rw [h1] at heq; cases heq
    · split
      · next heq => rw [h2] at heq; cases heq
      · next heq => rw [h2] at heq; cases heq; rfl

/-- The retry loop never makes more than `max_retries = 3` attempts. -/
lemma chunkRetry_attempts_le (b k : String) (net : Nat → Except String String) :
    (chunkRetry b k net).attempts ≤ 3 := by
  rw [chunkRetry]
  split
  · simp
  · split
    · simp
    · split <;> simp

end ChunkRetryLemmas

/-! ## Backend-dispatch corollaries -/

/-- With the deepl backend and an empty key, every attempt raises the
configuration error without consulting the external world. -/
lemma translateChunkAttempt_deepl_noKey (x : Except String String) :
    translateChunkAttempt "deepl" "" x = (Except.error deeplKeyErrorMsg, false) := rfl

/-- With the deepl backend and an empty key, the retry loop makes all three
attempts (sleeping 2 s then 4 s), performs no external call, and raises the
retry-exhaustion error wrapping the configuration error. -/
lemma chunkRetry_deepl_noKey (net : Nat → Except String String) :
    chunkRetry "deepl" "" net =
      { sleeps := [2, 4], attempts := 3, netCalls := 0,
        result := Except.error (failMsg deeplKeyErrorMsg) } := rfl

/-- With an unrecognized backend selector, every attempt raises the
unknown-backend error without consulting the external world. -/
lemma translateChunkAttempt_unknown {b : String} (k : String)
    (h1 : b ≠ "googletrans") (h2 : b ≠ "deep-translator") (h3 : b ≠ "deepl")
    (x : Except String String) :
    translateChunkAttempt b k x
      = (Except.error ("Unknown translation backend: " ++ b), false) := by
  rw [translateChunkAttempt, if_neg (by simpa using h1), if_neg (by simpa using h2),
    if_neg (by simpa using h3)]

/-- With an unrecognized backend selector, the retry loop makes all three
attempts (sleeping 2 s then 4 s), performs no external call, and raises the
retry-exhaustion error wrapping the unknown-backend error. -/
lemma chunkRetry_unknown {b : String} (k : String)
    (h1 : b ≠ "googletrans") (h2 : b ≠ "deep-translator") (h3 : b ≠ "deepl")
    (net : Nat → Except String String) :
    chunkRetry b k net =
      { sleeps := [2, 4], attempts := 3, netCalls := 0,
        result := Except.error (failMsg ("Unknown translation backend: " ++ b)) } := by
  have hp : ∀ x, translateChunkAttempt b k x
      = (Except.error ("Unknown translation backend: " ++ b), false) :=
    translateChunkAttempt_unknown k h1 h2 h3
  rw [chunkRetry_allFail (by rw [hp (net 0)]) (by rw [hp (net 1)]) (by rw [hp (net 2)])]
  rw [hp (net 0), hp (net 1), hp (net 2)]
  rfl

/-! ## Claim theorems -/

/-- C1: For every chunk, the runner attempts the backend call up to 3 times
total, sleeping 2 seconds before the second attempt and 4 seconds before the
third; if all 3 attempts fail (here at chunk `m`, the first `m` chunks having
succeeded with the flag up), the run terminates with a Failure outcome whose
description contains the last error's description (it is `failMsg elast`,
which is the fixed prefix followed by `elast`), and no subsequent chunk is
attempted. -/
theorem c1_retry_exhaustion_aborts_run
    (text backend apiKey : String) (net : Nat → Nat → Except String String)
    (running : Nat → Bool) (m : Nat) (e0 e1 elast : String)
    (hm : m < (chunksOf text).length)
    (hrun : ∀ j, j ≤ m → running j = true)
    (hok : ∀ j, j < m → ∃ t, (chunkRetry backend apiKey (net j)).result = Except.ok t)
    (h0 : (translateChunkAttempt backend apiKey (net m 0)).1 = Except.error e0)
    (h1 : (translateChunkAttempt backend apiKey (net m 1)).1 = Except.error e1)
    (h2 : (translateChunkAttempt backend apiKey (net m 2)).1 = Except.error elast) :
    (chunkRetry backend apiKey (net m)).attempts = 3
    ∧ (chunkRetry backend apiKey (net m)).sleeps = [2, 4]
    ∧ (∀ oracle, (chunkRetry backend apiKey oracle).attempts ≤ 3)
    ∧ (workerRun text backend apiKey net running).outcome
        = some (Except.error (failMsg elast))
    ∧ (workerRun text backend apiKey net running).chunksAttempted = m + 1 := by
  have hcr := chunkRetry_allFail h0 h1 h2
  have herr : (chunkRetry backend apiKey (net m)).result
      = Except.error (failMsg elast) := by rw [hcr]
  have hmain := runLoop_err_outcome backend apiKey net running
    (chunksOf text).length (chunksOf text) m 0 "" (failMsg elast) hm
    (fun j hj => by simpa using hrun j hj)
    (fun j hj => by simpa using hok j hj)
    (by simpa using herr)
  refine ⟨by rw [hcr], by rw [hcr],
    fun oracle => chunkRetry_attempts_le backend apiKey oracle, ?_, ?_⟩
  · simpa [workerRun] using hmain.1
  · simpa [workerRun] using hmain.2

theorem c1_witness :
    (workerRun "hi" "googletrans" "" (fun _ _ => Except.error "boom")
        (fun _ => true)).outcome
      = some (Except.error (failMsg "boom")) := by
  have h := c1_retry_exhaustion_aborts_run "hi" "googletrans" ""
    (fun _ _ => Except.error "boom") (fun _ => true) 0 "boom" "boom" "boom"
    (by rw [chunksOf_small (by decide) (by decide)]; decide)
    (fun _ _ => rfl)
    (fun j hj => absurd hj (Nat.not_lt_zero j))
    rfl rfl rfl
  exact h.2.2.2.1

/-- C2: For every text of length `L`, chunking produces exactly
`ceil(L / 4500)` ordered chunks (over the naturals, `(L + 4499) / 4500`),
each of length at most 4500 characters, such that concatenating the chunks in
order reproduces the original text exactly; empty input yields zero chunks. -/
theorem c2_chunking_exact (s : String) :
    (chunksOf s).length = (s.length + 4499) / 4500
    ∧ (∀ c ∈ chunksOf s, c.length ≤ 4500)
    ∧ String.join (chunksOf s) = s
    ∧ (s = "" → chunksOf s = []) := by
  refine ⟨chunksOf_length s, fun c hc => chunksOf_mem_length hc, chunksOf_join s, ?_⟩
  rintro rfl
  rw [chunksOf, show ("" : String).data = [] from rfl, chunkData]
  rfl

/-- C3, counterexample to the claim as stated: selecting the deepl backend
with an empty credential string does NOT fail immediately without any retry:
the configuration error is swept into the generic retry loop, so the run makes
3 attempts and sleeps 2 s and 4 s before failing (no network attempt does
occur on any of them). -/
theorem c3_counterexample :
    (workerRun "hi" "deepl" "" (fun _ _ => Except.ok "t") (fun _ => true)).attempts = 3
    ∧ (workerRun "hi" "deepl" "" (fun _ _ => Except.ok "t") (fun _ => true)).sleeps = [2, 4]
    ∧ (workerRun "hi" "deepl" "" (fun _ _ => Except.ok "t") (fun _ => true)).netCalls = 0
    ∧ (workerRun "hi" "deepl" "" (fun _ _ => Except.ok "t") (fun _ => true)).outcome
        = some (Except.error (failMsg deeplKeyErrorMsg))
    ∧ ¬ ((workerRun "hi" "deepl" "" (fun _ _ => Except.ok "t") (fun _ => true)).attempts = 1
          ∧ (workerRun "hi" "deepl" "" (fun _ _ => Except.ok "t") (fun _ => true)).sleeps
              = ([] : List Nat)) := by
  have hc : chunksOf "hi" = ["hi"] := chunksOf_small (by decide) (by decide)
  simp only [workerRun, hc]
  decide

/-- C3, amended: for every run with the deepl backend selected and an empty
credential string (on a non-empty text, with the running flag up), the run
fails with a terminal error whose description contains the configuration
error, without any network attempt — but only after the full 3-attempt retry
loop (sleeping 2 s and 4 s), not immediately; no further chunk is attempted. -/
theorem c3_amended_deepl_empty_key (text : String)
    (net : Nat → Nat → Except String String) (running : Nat → Bool)
    (htext : text ≠ "") (hrun0 : running 0 = true) :
    (workerRun text "deepl" "" net running).outcome
        = some (Except.error (failMsg deeplKeyErrorMsg))
    ∧ (workerRun text "deepl" "" net running).netCalls = 0
    ∧ (workerRun text "deepl" "" net running).attempts = 3
    ∧ (workerRun text "deepl" "" net running).sleeps = [2, 4]
    ∧ (workerRun text "deepl" "" net running).chunksAttempted = 1 := by
  obtain ⟨c, rest, hc⟩ : ∃ c rest, chunksOf text = c :: rest := by
    cases h : chunksOf text with
    | nil => exact absurd h (chunksOf_ne_nil htext)
    | cons c rest => exact ⟨c, rest, rfl⟩
  have hres : (chunkRetry "deepl" "" (net 0)).result
      = Except.error (failMsg deeplKeyErrorMsg) := by rw [chunkRetry_deepl_noKey]
  rw [workerRun, hc,
    runLoop_cons_err "deepl" "" net running (c :: rest).length c rest "" hrun0 hres,
    chunkRetry_deepl_noKey]
  exact ⟨rfl, rfl, rfl, rfl, rfl⟩

theorem c3_witness :
    (workerRun "ab" "deepl" "" (fun _ _ => Except.ok "t") (fun _ => true)).outcome
        = some (Except.error (failMsg deeplKeyErrorMsg))
    ∧ (workerRun "ab" "deepl" "" (fun _ _ => Except.ok "t") (fun _ => true)).netCalls = 0 := by
  have h := c3_amended_deepl_empty_key "ab" (fun _ _ => Except.ok "t")
    (fun _ => true) (by decide) rfl
  exact ⟨h.1, h.2.1⟩

/-- C4: For every run, cancellation is checked exactly once per chunk boundary
reached (before each chunk's backend call): a run whose flag is read as up at
the first `m` boundaries (those chunks succeeding) and as down at boundary `m`
performs exactly `m + 1` checks, attempts no chunk from `m` on, and stops
without delivering any outcome — neither the done nor the error callback
fires. -/
theorem c4_cancellation_no_outcome (text backend apiKey : String)
    (net : Nat → Nat → Except String String) (running : Nat → Bool) (m : Nat)
    (hm : m < (chunksOf text).length)
    (hrun : ∀ j, j < m → running j = true)
    (hcan : running m = false)
    (hok : ∀ j, j < m → ∃ t, (chunkRetry backend apiKey (net j)).result = Except.ok t) :
    (workerRun text backend apiKey net running).outcome = none
    ∧ (workerRun text backend apiKey net running).chunksAttempted = m
    ∧ (workerRun text backend apiKey net running).checks = m + 1 := by
  have h := runLoop_cancel_at backend apiKey net running (chunksOf text).length
    (chunksOf text) m 0 "" hm
    (fun j hj => by simpa using hrun j hj)
    (by simpa using hcan)
    (fun j hj => by simpa using hok j hj)
  exact ⟨by simpa [workerRun] using h.1, by simpa [workerRun] using h.2.1,
    by simpa [workerRun] using h.2.2⟩

theorem c4_witness :
    (workerRun "hi" "googletrans" "" (fun _ _ => Except.ok "t") (fun _ => false)).outcome
        = none
    ∧ (workerRun "hi" "googletrans" "" (fun _ _ => Except.ok "t")
        (fun _ => false)).chunksAttempted = 0
    ∧ (workerRun "hi" "googletrans" "" (fun _ _ => Except.ok "t")
        (fun _ => false)).checks = 1 :=
  c4_cancellation_no_outcome "hi" "googletrans" "" (fun _ _ => Except.ok "t")
    (fun _ => false) 0
    (by rw [chunksOf_small (by decide) (by decide)]; decide)
    (fun j hj => absurd hj (Nat.not_lt_zero j)) rfl
    (fun j hj => absurd hj (Nat.not_lt_zero j))

/-- C5, counterexample to the claim as stated: the final buffer is stripped of
whitespace on BOTH ends (Python `str.strip()`), not just trailing whitespace:
a single chunk whose backend translation is `" x"` yields the Success value
`"x"`, while stripping only trailing whitespace from the buffer `" x "` as the
claim states would yield `" x"`. -/
theorem c5_counterexample :
    (workerRun "a" "googletrans" "" (fun _ _ => Except.ok " x") (fun _ => true)).outcome
      = some (Except.ok "x")
    ∧ specRStrip ("" ++ " x" ++ " ") = " x"
    ∧ (workerRun "a" "googletrans" "" (fun _ _ => Except.ok " x") (fun _ => true)).outcome
        ≠ some (Except.ok (specRStrip ("" ++ " x" ++ " "))) := by
  have hc : chunksOf "a" = ["a"] := chunksOf_small (by decide) (by decide)
  simp only [workerRun, hc]
  decide

/-- C5, amended: for every run in which all chunks succeed, the Success
outcome equals the per-chunk translations concatenated in chunk order with a
single separating space after each, with LEADING AND trailing whitespace
stripped from the final buffer; in particular, for any text shorter than the
chunk limit the output equals the single chunk's translation modulo
leading/trailing-whitespace trimming. -/
theorem c5_amended_success_concatenation (text backend apiKey : String)
    (net : Nat → Nat → Except String String) (running : Nat → Bool)
    (ts : List String)
    (hlen : ts.length = (chunksOf text).length)
    (hrun : ∀ j, j < (chunksOf text).length → running j = true)
    (hok : ∀ j, (hj : j < ts.length) →
      (chunkRetry backend apiKey (net j)).result = Except.ok (ts.get ⟨j, hj⟩)) :
    (workerRun text backend apiKey net running).outcome
      = some (Except.ok (pyStrip (ts.foldl (fun a t => a ++ t ++ " ") ""))) := by
  have h := runLoop_ok_outcome backend apiKey net running (chunksOf text).length
    (chunksOf text) ts 0 "" hlen
    (fun j hj => by simpa using hrun j hj)
    (fun j hj => by simpa using hok j hj)
  simpa [workerRun] using h

theorem c5_witness :
    (workerRun "hello" "googletrans" "" (fun _ _ => Except.ok "hola")
        (fun _ => true)).outcome = some (Except.ok "hola") := by
  have h := c5_amended_success_concatenation "hello" "googletrans" ""
    (fun _ _ => Except.ok "hola") (fun _ => true) ["hola"]
    (by rw [chunksOf_small (by decide) (by decide)]; rfl)
    (fun j hj => rfl)
    (fun j hj => by
      have hj0 : j = 0 := by simpa using hj
      subst hj0
      rfl)
  rw [h]
  decide

/-- C7, counterexample to the claim as stated: an unrecognized backend
selector does NOT fail immediately: the unknown-backend error is swept into
the generic retry loop, so the run makes 3 attempts and sleeps 2 s and 4 s
before the terminal failure. -/
theorem c7_counterexample :
    (workerRun "hi" "azure" "" (fun _ _ => Except.ok "t") (fun _ => true)).attempts = 3
    ∧ (workerRun "hi" "azure" "" (fun _ _ => Except.ok "t") (fun _ => true)).sleeps = [2, 4]
    ∧ (workerRun "hi" "azure" "" (fun _ _ => Except.ok "t") (fun _ => true)).outcome
        = some (Except.error (failMsg "Unknown translation backend: azure"))
    ∧ ¬ ((workerRun "hi" "azure" "" (fun _ _ => Except.ok "t") (fun _ => true)).attempts = 1
          ∧ (workerRun "hi" "azure" "" (fun _ _ => Except.ok "t") (fun _ => true)).sleeps
              = ([] : List Nat)) := by
  have hc : chunksOf "hi" = ["hi"] := chunksOf_small (by decide) (by decide)
  simp only [workerRun, hc]
  decide

/-- C7, amended: for every run whose backend selector is not one of the three
recognized backends (on a non-empty text, with the running flag up), the run
fails fatally with a terminal Failure naming the unknown backend and attempts
no further chunk — but only after the full 3-attempt retry loop (sleeping 2 s
and 4 s), not immediately; no network call is made. -/
theorem c7_amended_unknown_backend (text backend apiKey : String)
    (net : Nat → Nat → Except String String) (running : Nat → Bool)
    (h1 : backend ≠ "googletrans") (h2 : backend ≠ "deep-translator")
    (h3 : backend ≠ "deepl") (htext : text ≠ "") (hrun0 : running 0 = true) :
    (workerRun text backend apiKey net running).outcome
        = some (Except.error (failMsg ("Unknown translation backend: " ++ backend)))
    ∧ (workerRun text backend apiKey net running).netCalls = 0
    ∧ (workerRun text backend apiKey net running).attempts = 3
    ∧ (workerRun text backend apiKey net running).sleeps = [2, 4]
    ∧ (workerRun text backend apiKey net running).chunksAttempted = 1 := by
  obtain ⟨c, rest, hc⟩ : ∃ c rest, chunksOf text = c :: rest := by
    cases h : chunksOf text with
    | nil => exact absurd h (chunksOf_ne_nil htext)
    | cons c rest => exact ⟨c, rest, rfl⟩
  have hres : (chunkRetry backend apiKey (net 0)).result
      = Except.error (failMsg ("Unknown translation backend: " ++ backend)) := by
    rw [chunkRetry_unknown apiKey h1 h2 h3]
  rw [workerRun, hc,
    runLoop_cons_err backend apiKey net running (c :: rest).length c rest "" hrun0 hres,
    chunkRetry_unknown apiKey h1 h2 h3]
  exact ⟨rfl, rfl, rfl, rfl, rfl⟩

theorem c7_witness :
    (workerRun "ab" "azure" "" (fun _ _ => Except.ok "t") (fun _ => true)).outcome
        = some (Except.error (failMsg "Unknown translation backend: azure"))
    ∧ (workerRun "ab" "azure" "" (fun _ _ => Except.ok "t") (fun _ => true)).netCalls = 0 := by
  have h := c7_amended_unknown_backend "ab" "azure" "" (fun _ _ => Except.ok "t")
    (fun _ => true) (by decide) (by decide) (by decide) (by decide) rfl
  exact ⟨h.1, h.2.1⟩

/-- C8: retries are transparent to the final result: if under world `net`
chunk `m`'s backend call fails on the first two attempts and succeeds on the
third with `v`, and under world `netFirst` (identical on all other chunks) it
succeeds immediately with the same `v`, then the two runs have identical
terminal outcomes — in particular identical Success outcomes when all other
chunks succeed. -/
theorem c8_retry_transparent (text backend apiKey : String)
    (net netFirst : Nat → Nat → Except String String) (running : Nat → Bool)
    (m : Nat) (v e0 e1 : String)
    (hagree : ∀ j, j ≠ m → net j = netFirst j)
    (h0 : (translateChunkAttempt backend apiKey (net m 0)).1 = Except.error e0)
    (h1 : (translateChunkAttempt backend apiKey (net m 1)).1 = Except.error e1)
    (h2 : (translateChunkAttempt backend apiKey (net m 2)).1 = Except.ok v)
    (h0' : (translateChunkAttempt backend apiKey (netFirst m 0)).1 = Except.ok v) :
    (workerRun text backend apiKey net running).outcome
      = (workerRun text backend apiKey netFirst running).outcome := by
  simp only [workerRun]
  apply runLoop_outcome_congr
  intro i
  by_cases him : i = m
  · subst him
    rw [chunkRetry_thirdOk h0 h1 h2, chunkRetry_ok0 h0']
  · rw [hagree i him]

theorem c8_witness :
    (workerRun "hi" "googletrans" ""
        (fun j a => if j = 0 then (if a < 2 then Except.error "e" else Except.ok "v")
          else Except.ok "v")
        (fun _ => true)).outcome
      = (workerRun "hi" "googletrans" "" (fun _ _ => Except.ok "v")
          (fun _ => true)).outcome :=
  c8_retry_transparent "hi" "googletrans" ""
    (fun j a => if j = 0 then (if a < 2 then Except.error "e" else Except.ok "v")
      else Except.ok "v")
    (fun _ _ => Except.ok "v") (fun _ => true) 0 "v" "e" "e"
    (fun j hj => funext fun a => by simp [hj])
    rfl rfl rfl rfl

/-- C9: the BackendC (DeepL) adapter maps codes present in its fixed map to
the provider's own code format — in particular `"en"` to `"EN-US"`, `"pt"` to
`"PT-PT"` and `"no"` to `"NB"` — and every code not in the map is upper-cased
and passed through verbatim. -/
theorem c9_deepl_lang_mapping :
    deeplTargetLang "en" = "EN-US"
    ∧ deeplTargetLang "pt" = "PT-PT"
    ∧ deeplTargetLang "no" = "NB"
    ∧ (∀ lang v, deeplLangMap.lookup lang = some v → deeplTargetLang lang = v)
    ∧ (∀ lang, deeplLangMap.lookup lang = none → deeplTargetLang lang = pyUpper lang) := by
  refine ⟨by decide, by decide, by decide, ?_, ?_⟩
  · intro lang v h
    rw [deeplTargetLang, h]
    rfl
  · intro lang h
    rw [deeplTargetLang, h]
    rfl

/-- C10: a translate request whose source text is empty or exactly equal to
the placeholder string is rejected before any worker is created — no
translation is started (so no outcome can ever be delivered), and the exact
placeholder text can never be translated; any other text starts a worker
carrying exactly that text. -/
theorem c10_placeholder_guard (s t b K : String) :
    (translateText s t b K = none ↔ (s = "" ∨ s = placeholderText))
    ∧ (∀ p, translateText s t b K = some p →
        p = ⟨s, t, b, K⟩ ∧ s ≠ "" ∧ s ≠ placeholderText)
    ∧ translateText placeholderText t b K = none
    ∧ translateText "" t b K = none := by
  refine ⟨?_, ?_, by simp [translateText], by simp [translateText]⟩
  · by_cases h : s = "" ∨ s = placeholderText
    · rw [translateText, if_pos h]
      simpa using h
    · rw [translateText, if_neg h]
      simpa using h
  · intro p hp
    by_cases h : s = "" ∨ s = placeholderText
    · rw [translateText, if_pos h] at hp
      cases hp
    · rw [translateText, if_neg h] at hp
      cases hp
      exact ⟨rfl, fun h1 => h (Or.inl h1), fun h2 => h (Or.inr h2)⟩

end TranslatorPro
